import Mathlib

/-!
# Verification of the hwmon desktop widget

Shallow embedding of the hwmon repository (a Windows hardware-monitor
overlay widget) and proofs about its sensor fallback logic, window
snapping geometry, monitor picking, and minimize/restore behaviour.

Python floats are modelled as rationals (`ℚ`); the properties verified
here concern control flow, ordering, clamping and exact arithmetic
identities, not floating-point rounding.  Pixel coordinates are
modelled as `ℤ`.  `None` becomes `Option.none`; code that can raise a
Python exception is embedded in `Except String`.
-/

namespace Hwmon

/-! ## sensors.py -/

/-- Embeds `to_celsius` (sensors.py): PDH thermal counters above 200 are
Kelvin and get 273.15 subtracted. -/
def to_celsius (raw : ℚ) : ℚ :=
  if raw > 200 then raw - 273.15 else raw

/-- Embeds `SensorBackend._gpu_temp_nvidia`.  The state is `none` when the
NVAPI monitor failed to initialise, otherwise `some ts` where `ts` is the
list returned by `get_temperatures()`.  A non-empty list yields its
arithmetic mean. -/
def gpu_temp_nvidia (nvapi : Option (List ℚ)) : Option ℚ :=
  match nvapi with
  | none => none
  | some ts => if ts.isEmpty then none else some (ts.sum / ts.length)

/-- Embeds `SensorBackend._gpu_temp_amd`: same shape as the NVIDIA source,
over the ADL monitor. -/
def gpu_temp_amd (amdadl : Option (List ℚ)) : Option ℚ :=
  match amdadl with
  | none => none
  | some ts => if ts.isEmpty then none else some (ts.sum / ts.length)

/-- Embeds `SensorBackend._gpu_temp_pdh`: filters out `None` readings of the
`gpu_temp` counter array, converts each to Celsius, and averages; empty
result yields `None`. -/
def gpu_temp_pdh (readings : List (Option ℚ)) : Option ℚ :=
  let temps := (readings.filterMap id).map to_celsius
  if temps.isEmpty then none else some (temps.sum / temps.length)

/-- Embeds `SensorBackend._gpu_temperature`: try NVAPI, then AMD ADL, then
the PDH `GPU Adapter` counter, returning the first value that is not
`None`. -/
def gpu_temperature (nvapi amdadl : Option (List ℚ))
    (pdh_readings : List (Option ℚ)) : Option ℚ :=
  match gpu_temp_nvidia nvapi with
  | some t => some t
  | none =>
    match gpu_temp_amd amdadl with
    | some t => some t
    | none =>
      match gpu_temp_pdh pdh_readings with
      | some t => some t
      | none => none

/-- Embeds `SensorBackend._get_cpu_usage`: `None` propagates, otherwise the
raw counter value is clamped into `[0, 100]` by `max(0.0, min(value, 100.0))`. -/
def get_cpu_usage (value : Option ℚ) : Option ℚ :=
  match value with
  | none => none
  | some v => some (max 0 (min v 100))

/-- The Python expression `pat in s` (substring containment test). -/
def strContains (s pat : String) : Bool :=
  (s.splitOn pat).length != 1

/-- The name filter of `SensorBackend._gpu_usage`: keep GPU-engine counter
instances whose name mentions a 3d/compute/copy engine or the total. -/
def gpu_usage_name_matches (name : String) : Bool :=
  strContains name "engtype_3d" || strContains name "engtype_compute" ||
    strContains name "engtype_copy" || strContains name "_total"

/-- Embeds `SensorBackend._gpu_usage`.  `names` is `self._gpu_usage_names`
(the remembered instance names), `readings` the `gpu_usage` counter dict.
On the first populated sample the matching names are collected; afterwards
only the remembered names are read.  The total is clamped to `[0, 100]`.
Returns the value together with the updated name set. -/
def gpu_usage (names : List String) (readings : List (String × Option ℚ)) :
    Option ℚ × List String :=
  let scan :=
    if names.isEmpty then
      readings.foldl
        (fun (acc : List ℚ × List String) nv =>
          match nv.2 with
          | none => acc
          | some v =>
            if gpu_usage_name_matches nv.1 then
              (acc.1 ++ [v], acc.2 ++ [nv.1])
            else acc)
        ([], [])
    else
      (names.filterMap (fun n => (readings.lookup n).join), names)
  if scan.1.isEmpty then (none, scan.2)
  else (some (max 0 (min scan.1.sum 100)), scan.2)

/-- Embeds `SensorBackend._cpu_temperature`: keep truthy readings (not
`None` and non-zero) converted to Celsius; prefer the first instance whose
name contains `"cpu"`, else average all. -/
def cpu_temperature (readings : List (String × Option ℚ)) : Option ℚ :=
  let temps := readings.filterMap (fun nv =>
    match nv.2 with
    | some v => if v ≠ 0 then some (nv.1, to_celsius v) else none
    | none => none)
  if temps.isEmpty then none
  else
    match temps.find? (fun nt => strContains nt.1 "cpu") with
    | some nt => some nt.2
    | none => some ((temps.map Prod.snd).sum / temps.length)

/-! ## pdh_counters.py / network.py

`PDHQuery.get_array` builds a `list[float | None]` from the formatted
counter items: the value when the item's `CStatus` is `ERROR_SUCCESS`
(0), `None` otherwise.  `NetworkBackend._get_total_bytes` then iterates
that list with `for name, value in readings`, i.e. it tries to unpack
each element as a pair.  To capture the runtime behaviour of that
unpacking we embed the relevant fragment of Python's value universe. -/

/-- A Python runtime value as it can appear in these lists: `None`, a
float, a string, or a 2-tuple. -/
inductive PyVal where
  | pynone : PyVal
  | num : ℚ → PyVal
  | str : String → PyVal
  | tup : PyVal → PyVal → PyVal
deriving DecidableEq

/-- Python's `name, value = item` unpacking: succeeds only on a 2-tuple,
raises `TypeError` otherwise. -/
def pyUnpack2 : PyVal → Except String (PyVal × PyVal)
  | .tup a b => .ok (a, b)
  | _ => .error "TypeError: cannot unpack non-iterable object"

/-- Embeds `PDHQuery.get_array`: each formatted item `(CStatus, value)`
becomes the float when `CStatus == ERROR_SUCCESS`, else `None`. -/
def get_array (items : List (Nat × ℚ)) : List PyVal :=
  items.map (fun item => if item.1 = 0 then PyVal.num item.2 else PyVal.pynone)

/-- One iteration of the loop in `NetworkBackend._get_total_bytes`: unpack
the element as `name, value`; skip `None` values and loopback/total
labels; otherwise accumulate `(total, count)`. -/
def get_total_bytes_step (acc : ℚ × Nat) (item : PyVal) :
    Except String (ℚ × Nat) :=
  match pyUnpack2 item with
  | .error e => .error e
  | .ok (name, value) =>
    match value with
    | .pynone => .ok acc
    | .num v =>
      match name with
      | .str s =>
        let label := s.toLower
        if strContains label "loopback" || strContains label "_total" then
          .ok acc
        else .ok (acc.1 + v, acc.2 + 1)
      | .pynone => .ok (acc.1 + v, acc.2 + 1)
      | _ => .error "AttributeError: no attribute lower"
    | _ => .error "TypeError: unsupported operand type for +="

/-- Embeds `NetworkBackend._get_total_bytes` applied to the readings list:
fold the loop body over the list, then return the total if any interface
contributed, else `None`. -/
def get_total_bytes (readings : List PyVal) : Except String (Option ℚ) :=
  match readings.foldlM get_total_bytes_step (0, 0) with
  | .error e => .error e
  | .ok (total, count) => .ok (if count > 0 then some total else none)

/-- One field of `NetworkBackend.sample`: `_get_total_bytes` applied to
what `get_array` returns for the counter's formatted items. -/
def network_sample_field (items : List (Nat × ℚ)) : Except String (Option ℚ) :=
  get_total_bytes (get_array items)

/-! ## utils.py -/

/-- Embeds `linear_scale` (utils.py), with Python's failure modes made
explicit: `min()`/`max()` raise `ValueError` on an empty sequence, and the
unguarded division raises `ZeroDivisionError` when the range is zero
(Python's `min`/`max` of a sequence are left folds over its elements). -/
def linear_scale (values : List ℚ) : Except String (List ℚ) :=
  match values with
  | [] => .error "ValueError: min() arg is an empty sequence"
  | v :: vs =>
    let min_val := vs.foldl min v
    let max_val := vs.foldl max v
    let range_val := max_val - min_val
    if range_val = 0 then .error "ZeroDivisionError: float division by zero"
    else .ok ((v :: vs).map (fun val => (val - min_val) / range_val))

/-- The observable state a `SensorBackend.sample` call reads: the two vendor
monitors (each `none` if initialisation failed, else the temperature list
its `get_temperatures()` returns) and the formatted PDH counter data. -/
structure SensorState where
  nvapi : Option (List ℚ)
  amdadl : Option (List ℚ)
  cpu_temp_readings : List (String × Option ℚ)
  cpu_usage_value : Option ℚ
  gpu_temp_readings : List (Option ℚ)
  gpu_usage_readings : List (String × Option ℚ)
  gpu_usage_names : List String

/-- The dictionary returned by `SensorBackend.sample`. -/
structure Sample where
  cpu_temp : Option ℚ
  cpu_usage : Option ℚ
  gpu_temp : Option ℚ
  gpu_usage : Option ℚ

/-- Embeds `SensorBackend.sample`: one reading of each metric. -/
def sample (s : SensorState) : Sample :=
  { cpu_temp := cpu_temperature s.cpu_temp_readings
    cpu_usage := get_cpu_usage s.cpu_usage_value
    gpu_temp := gpu_temperature s.nvapi s.amdadl s.gpu_temp_readings
    gpu_usage := (gpu_usage s.gpu_usage_names s.gpu_usage_readings).1 }

/-! ## window.py -/

/-- The snap distance `SNAP_PX` (window.py). -/
def SNAP_PX : ℤ := 16

/-- The `SnapTarget` enum (window.py). -/
inductive SnapT where
  | nosnap : SnapT
  | left : SnapT
  | right : SnapT
  | top : SnapT
  | bottom : SnapT
  | topleft : SnapT
  | topright : SnapT
  | bottomleft : SnapT
  | bottomright : SnapT
deriving DecidableEq, Fintype

/-- One axis of `OverlayWindow._apply_snap` (window.py lines 252-264): if
the distance to the low edge is within `SNAP_PX` and not larger than the
distance to the high edge, snap to the low edge; else if the high-edge
distance is within `SNAP_PX`, snap so the far side touches the high edge;
else leave the coordinate unchanged with no snap. -/
def snap_axis (pos size lo hi : ℤ) (loT hiT : SnapT) : ℤ × Option SnapT :=
  let dLo := |pos - lo|
  let dHi := |pos + size - hi|
  if dLo ≤ SNAP_PX ∧ dLo ≤ dHi then (lo, some loT)
  else if dHi ≤ SNAP_PX then (hi - size, some hiT)
  else (pos, none)

/-- The target-combination step of `_apply_snap` (window.py lines 266-280):
`if snap_x and snap_y` picks a corner, a single axis keeps its edge, and no
snap yields `NONE`.  (`snap_x`/`snap_y` hold non-empty enum strings, so
Python truthiness is exactly `is not None`.) -/
def combine_targets : Option SnapT → Option SnapT → SnapT
  | some sx, some sy =>
    if sy = SnapT.top ∧ sx = SnapT.left then SnapT.topleft
    else if sy = SnapT.top ∧ sx = SnapT.right then SnapT.topright
    else if sy = SnapT.bottom ∧ sx = SnapT.left then SnapT.bottomleft
    else SnapT.bottomright
  | some sx, none => sx
  | none, some sy => sy
  | none, none => SnapT.nosnap

/-- Embeds `OverlayWindow._apply_snap`: both axes are snapped
independently against the work rectangle `(left, top, right, bottom)` and
the resulting axis targets are combined. -/
def apply_snap (x y w h left top right bottom : ℤ) : ℤ × ℤ × SnapT :=
  let xs := snap_axis x w left right SnapT.left SnapT.right
  let ys := snap_axis y h top bottom SnapT.top SnapT.bottom
  (xs.1, ys.1, combine_targets xs.2 ys.2)

/-- A RECT as carried in `MONITORINFO`. -/
structure Rect where
  left : ℤ
  top : ℤ
  right : ℤ
  bottom : ℤ
deriving DecidableEq

/-- The `Monitor` named tuple (window.py). -/
structure Monitor where
  monitor_rect : Rect
  work_rect : Rect
deriving DecidableEq

/-- Embeds `_contains_point` (window.py): closed-rectangle membership. -/
def contains_point (left top right bottom px py : ℤ) : Bool :=
  decide (left ≤ px) && decide (px ≤ right) &&
    decide (top ≤ py) && decide (py ≤ bottom)

/-- Embeds `_dist2_to_rect` (window.py): squared distance from the point to
its clamp onto the rectangle. -/
def dist2_to_rect (left top right bottom px py : ℤ) : ℤ :=
  let cx := min (max px left) right
  let cy := min (max py top) bottom
  let dx := px - cx
  let dy := py - cy
  dx * dx + dy * dy

/-- `_contains_point` applied to a monitor's `monitor_rect`. -/
def monitor_contains (m : Monitor) (px py : ℤ) : Bool :=
  contains_point m.monitor_rect.left m.monitor_rect.top
    m.monitor_rect.right m.monitor_rect.bottom px py

/-- `_dist2_to_rect` applied to a monitor's `monitor_rect`. -/
def monitor_dist2 (m : Monitor) (px py : ℤ) : ℤ :=
  dist2_to_rect m.monitor_rect.left m.monitor_rect.top
    m.monitor_rect.right m.monitor_rect.bottom px py

/-- The selection loop at the end of `_pick_monitor` (window.py lines
226-233): starting from `best = candidates[0]`, walk the remaining
candidates and replace `best` whenever a strictly smaller distance is
found (so ties keep the earlier candidate). -/
def select_best (f : Monitor → ℤ) : Monitor → List Monitor → Monitor
  | best, [] => best
  | best, c :: cs => if f c < f best then select_best f c cs else select_best f best cs

/-- Embeds `OverlayWindow._pick_monitor`: `None` on an empty cache; else
restrict to the monitors containing the point when any does, and pick the
first candidate at minimal `_dist2_to_rect`. -/
def pick_monitor (monitors : List Monitor) (px py : ℤ) : Option Monitor :=
  match monitors with
  | [] => none
  | _ :: _ =>
    let contained := monitors.filter (fun m => monitor_contains m px py)
    let candidates := if contained.isEmpty then monitors else contained
    match candidates with
    | [] => none
    | c :: cs => some (select_best (fun m => monitor_dist2 m px py) c cs)

/-- Embeds `OverlayWindow._refresh_monitor_cache`: a failed
`EnumDisplayMonitors` call empties the list, and an empty list is replaced
by a single full-screen monitor whose work area is the whole screen. -/
def refresh_monitor_cache (enum_ok : Bool) (enumerated : List Monitor)
    (screen_w screen_h : ℤ) : List Monitor :=
  let monitors := if enum_ok then enumerated else []
  if monitors.isEmpty then
    [{ monitor_rect := ⟨0, 0, screen_w, screen_h⟩
       work_rect := ⟨0, 0, screen_w, screen_h⟩ }]
  else monitors

/-! ## main.py -/

/-- The window/application state that `MonitorApp`'s minimize/restore code
manipulates: the two-state `_minimized` flag, the saved `_restore_size`,
the window geometry, and which components are shown. -/
structure AppState where
  minimized : Bool
  restore_size : Option (ℤ × ℤ)
  win_x : ℤ
  win_y : ℤ
  win_w : ℤ
  win_h : ℤ
  cpu_shown : Bool
  gpu_shown : Bool
  time_shown : Bool
deriving DecidableEq

/-- Embeds `MonitorApp._minimize_to_strip`: save the current size, hide
every component but the time strip, and set the geometry to the current
width and the time strip's height (at least 1) at the unchanged position.
`time_reqh`/`time_winh` are `winfo_reqheight()`/`winfo_height()` of the
time frame measured after re-layout. -/
def minimize_to_strip (s : AppState) (time_reqh time_winh : ℤ) : AppState :=
  { s with
    restore_size := some (s.win_w, s.win_h)
    cpu_shown := false
    gpu_shown := false
    time_shown := true
    win_h := max (max time_reqh time_winh) 1
    minimized := true }

/-- Embeds `MonitorApp._restore_from_strip`: re-show all components and,
when a size was saved, restore it at the window's current position; clear
the minimized flag. -/
def restore_from_strip (s : AppState) : AppState :=
  let s1 := { s with cpu_shown := true, gpu_shown := true, time_shown := true }
  match s1.restore_size with
  | some wh => { s1 with win_w := wh.1, win_h := wh.2, minimized := false }
  | none => { s1 with minimized := false }

/-- Embeds `MonitorApp._toggle_minimized`. -/
def toggle_minimized (s : AppState) (time_reqh time_winh : ℤ) : AppState :=
  if s.minimized then restore_from_strip s else minimize_to_strip s time_reqh time_winh

/-- The horizontal component of a snap target (`left` for the left edge
and left corners, `right` for the right edge and right corners). -/
def hTarget : SnapT → Option SnapT
  | .left => some .left
  | .topleft => some .left
  | .bottomleft => some .left
  | .right => some .right
  | .topright => some .right
  | .bottomright => some .right
  | _ => none

/-- The vertical component of a snap target. -/
def vTarget : SnapT → Option SnapT
  | .top => some .top
  | .topleft => some .top
  | .topright => some .top
  | .bottom => some .bottom
  | .bottomleft => some .bottom
  | .bottomright => some .bottom
  | _ => none

/-! ## Claim theorems: sensor layer -/

/-- C1: `_gpu_temperature` tries NVIDIA NVAPI, then AMD ADL, then the PDH
`GPU Adapter` counter in that fixed order and returns the first source's
non-`None` value; each source's value is the arithmetic mean of its
readings; the result is `None` exactly when all three sources yield
`None`. -/
theorem gpu_temperature_fallback_chain (nvapi amdadl : Option (List ℚ))
    (pdh_readings : List (Option ℚ)) :
    (∀ t, gpu_temp_nvidia nvapi = some t →
      gpu_temperature nvapi amdadl pdh_readings = some t)
    ∧ (gpu_temp_nvidia nvapi = none → ∀ t, gpu_temp_amd amdadl = some t →
      gpu_temperature nvapi amdadl pdh_readings = some t)
    ∧ (gpu_temp_nvidia nvapi = none → gpu_temp_amd amdadl = none →
      gpu_temperature nvapi amdadl pdh_readings = gpu_temp_pdh pdh_readings)
    ∧ (gpu_temperature nvapi amdadl pdh_readings = none ↔
      gpu_temp_nvidia nvapi = none ∧ gpu_temp_amd amdadl = none ∧
        gpu_temp_pdh pdh_readings = none)
    ∧ (∀ ts, nvapi = some ts → ts ≠ [] →
      gpu_temp_nvidia nvapi = some (ts.sum / ts.length))
    ∧ (∀ ts, amdadl = some ts → ts ≠ [] →
      gpu_temp_amd amdadl = some (ts.sum / ts.length))
    ∧ (∀ temps, temps = (pdh_readings.filterMap id).map to_celsius →
      temps ≠ [] → gpu_temp_pdh pdh_readings = some (temps.sum / temps.length)) := by
  refine ⟨?_, ?_, ?_, ?_, ?_, ?_, ?_⟩
  · intro t ht
    simp [gpu_temperature, ht]
  · intro hn t ht
    simp [gpu_temperature, hn, ht]
  · intro hn ha
    cases hp : gpu_temp_pdh pdh_readings <;>
      simp [gpu_temperature, hn, ha, hp]
  · cases hn : gpu_temp_nvidia nvapi <;>
      cases ha : gpu_temp_amd amdadl <;>
        cases hp : gpu_temp_pdh pdh_readings <;>
          simp [gpu_temperature, hn, ha, hp]
  · intro ts hts hne
    subst hts
    simp [gpu_temp_nvidia, hne]
  · intro ts hts hne
    subst hts
    simp [gpu_temp_amd, hne]
  · intro temps htemps hne
    subst htemps
    simp [gpu_temp_pdh, List.isEmpty_iff, hne]

/-- Witness for C1 at a concrete state: NVAPI absent, ADL reporting a single
70-degree sensor, so the chain falls through to the AMD mean. -/
theorem gpu_temperature_fallback_chain_witness :
    gpu_temperature none (some [70]) [] = some 70 :=
  (gpu_temperature_fallback_chain none (some [70]) []).2.1 rfl 70
    (by norm_num [gpu_temp_amd])

/-- C8: the `cpu_usage` and `gpu_usage` fields of `sample` are each either
`None` or a value clamped into the closed interval `[0, 100]`. -/
theorem sample_usage_clamped (s : SensorState) :
    ((sample s).cpu_usage = none ∨
      ∃ q, (sample s).cpu_usage = some q ∧ 0 ≤ q ∧ q ≤ 100)
    ∧ ((sample s).gpu_usage = none ∨
      ∃ q, (sample s).gpu_usage = some q ∧ 0 ≤ q ∧ q ≤ 100) := by
  constructor
  · cases hv : s.cpu_usage_value with
    | none => left; simp [sample, get_cpu_usage, hv]
    | some v =>
      right
      refine ⟨max 0 (min v 100), by simp [sample, get_cpu_usage, hv], ?_, ?_⟩
      · exact le_max_left 0 _
      · exact max_le (by norm_num) (min_le_right v 100)
  · simp only [sample]
    simp only [gpu_usage]
    split <;> split
    · left; rfl
    · right
      exact ⟨_, rfl, le_max_left 0 _, max_le (by norm_num) (min_le_right _ 100)⟩
    · left; rfl
    · right
      exact ⟨_, rfl, le_max_left 0 _, max_le (by norm_num) (min_le_right _ 100)⟩


/-! ## Claim theorems: network layer and utils -/

/-- C2 (evaluation at the failing input): with a single successfully
formatted, non-loopback interface reading, `NetworkBackend.sample`'s
`_get_total_bytes` raises `TypeError` — `get_array` returns plain floats
while the loop unpacks `name, value` pairs — so the sensor layer's
sampling can raise instead of returning `None`; only the empty
(source-unavailable) case returns `None` as documented. -/
theorem network_get_total_bytes_type_error :
    network_sample_field [(0, 100)] =
      Except.error "TypeError: cannot unpack non-iterable object"
    ∧ network_sample_field [] = Except.ok none := by
  constructor <;> rfl

/-- `min()` of a Python sequence, as a left fold, is bounded by the initial
element. -/
theorem foldl_min_le_init (l : List ℚ) : ∀ a : ℚ, l.foldl min a ≤ a := by
  induction l with
  | nil => intro a; simp
  | cons b t ih =>
    intro a
    simp only [List.foldl_cons]
    exact (ih (min a b)).trans (min_le_left a b)

/-- `min()` of a Python sequence is bounded by every element. -/
theorem foldl_min_le_mem (l : List ℚ) :
    ∀ (a x : ℚ), x ∈ l → l.foldl min a ≤ x := by
  induction l with
  | nil => intro a x hx; cases hx
  | cons b t ih =>
    intro a x hx
    simp only [List.foldl_cons]
    rcases List.mem_cons.mp hx with rfl | hx
    · exact (foldl_min_le_init t (min a x)).trans (min_le_right a x)
    · exact ih (min a b) x hx

/-- `max()` of a Python sequence dominates the initial element. -/
theorem le_foldl_max_init (l : List ℚ) : ∀ a : ℚ, a ≤ l.foldl max a := by
  induction l with
  | nil => intro a; simp
  | cons b t ih =>
    intro a
    simp only [List.foldl_cons]
    exact (le_max_left a b).trans (ih (max a b))

/-- `max()` of a Python sequence dominates every element. -/
theorem le_foldl_max_mem (l : List ℚ) :
    ∀ (a x : ℚ), x ∈ l → x ≤ l.foldl max a := by
  induction l with
  | nil => intro a x hx; cases hx
  | cons b t ih =>
    intro a x hx
    simp only [List.foldl_cons]
    rcases List.mem_cons.mp hx with rfl | hx
    · exact (le_max_right a x).trans (le_foldl_max_init t (max a x))
    · exact ih (max a b) x hx

/-- `min()` over the whole non-empty sequence bounds every element. -/
theorem foldl_min_le_cons (v : ℚ) (vs : List ℚ) (x : ℚ) (hx : x ∈ v :: vs) :
    vs.foldl min v ≤ x := by
  rcases List.mem_cons.mp hx with rfl | hx
  · exact foldl_min_le_init vs x
  · exact foldl_min_le_mem vs v x hx

/-- `max()` over the whole non-empty sequence dominates every element. -/
theorem le_foldl_max_cons (v : ℚ) (vs : List ℚ) (x : ℚ) (hx : x ∈ v :: vs) :
    x ≤ vs.foldl max v := by
  rcases List.mem_cons.mp hx with rfl | hx
  · exact le_foldl_max_init vs x
  · exact le_foldl_max_mem vs v x hx

/-- C9: on a non-empty sequence whose maximum strictly exceeds its minimum,
`linear_scale` returns a same-length list with all elements in `[0, 1]`,
minimum positions mapping to `0` and maximum positions to `1`; outside that
precondition the unguarded arithmetic raises (empty sequence, or zero
range). -/
theorem linear_scale_spec (v : ℚ) (vs : List ℚ) :
    (vs.foldl min v < vs.foldl max v →
      ∃ l, linear_scale (v :: vs) = Except.ok l
        ∧ l.length = (v :: vs).length
        ∧ (∀ x ∈ l, 0 ≤ x ∧ x ≤ 1)
        ∧ (∀ i, ∀ hi : i < (v :: vs).length, ∀ hl : i < l.length,
            (v :: vs).get ⟨i, hi⟩ = vs.foldl min v → l.get ⟨i, hl⟩ = 0)
        ∧ (∀ i, ∀ hi : i < (v :: vs).length, ∀ hl : i < l.length,
            (v :: vs).get ⟨i, hi⟩ = vs.foldl max v → l.get ⟨i, hl⟩ = 1))
    ∧ (∃ e, linear_scale ([] : List ℚ) = Except.error e)
    ∧ (vs.foldl min v = vs.foldl max v →
      ∃ e, linear_scale (v :: vs) = Except.error e) := by
  refine ⟨?_, ⟨_, rfl⟩, ?_⟩
  · intro h
    have hpos : 0 < vs.foldl max v - vs.foldl min v := sub_pos.mpr h
    have hrange : vs.foldl max v - vs.foldl min v ≠ 0 := ne_of_gt hpos
    refine ⟨(v :: vs).map
      (fun val => (val - vs.foldl min v) / (vs.foldl max v - vs.foldl min v)),
      ?_, ?_, ?_, ?_, ?_⟩
    · simp only [linear_scale]
      rw [if_neg hrange]
    · simp
    · intro x hx
      rcases List.mem_map.mp hx with ⟨val, hval, rfl⟩
      constructor
      · exact div_nonneg (sub_nonneg.mpr (foldl_min_le_cons v vs val hval))
          hpos.le
      · rw [div_le_one hpos]
        exact sub_le_sub_right (le_foldl_max_cons v vs val hval) _
    · intro i hi hl hmn
      simp only [List.get_eq_getElem] at hmn ⊢
      simp only [List.getElem_map]
      rw [hmn, sub_self, zero_div]
    · intro i hi hl hmx
      simp only [List.get_eq_getElem] at hmx ⊢
      simp only [List.getElem_map]
      rw [hmx, div_self hrange]
  · intro heq
    refine ⟨"ZeroDivisionError: float division by zero", ?_⟩
    simp only [linear_scale]
    rw [if_pos (by rw [heq, sub_self])]

/-- Witness for C9 at the concrete sequence `[0, 2]`. -/
theorem linear_scale_spec_witness :
    ∃ l, linear_scale ((0 : ℚ) :: [2]) = Except.ok l
      ∧ l.length = ((0 : ℚ) :: [2]).length
      ∧ (∀ x ∈ l, 0 ≤ x ∧ x ≤ 1)
      ∧ (∀ i, ∀ hi : i < ((0 : ℚ) :: [2]).length, ∀ hl : i < l.length,
          ((0 : ℚ) :: [2]).get ⟨i, hi⟩ = List.foldl min 0 [2] →
            l.get ⟨i, hl⟩ = 0)
      ∧ (∀ i, ∀ hi : i < ((0 : ℚ) :: [2]).length, ∀ hl : i < l.length,
          ((0 : ℚ) :: [2]).get ⟨i, hi⟩ = List.foldl max 0 [2] →
            l.get ⟨i, hl⟩ = 1) :=
  (linear_scale_spec 0 [2]).1 (by norm_num)

/-! ## Claim theorems: window snapping -/

/-- `snap_axis` when the low edge wins. -/
theorem snap_axis_eq_lo (p s lo hi : ℤ) (loT hiT : SnapT)
    (h1 : |p - lo| ≤ 16) (h2 : |p - lo| ≤ |p + s - hi|) :
    snap_axis p s lo hi loT hiT = (lo, some loT) := by
  simp only [snap_axis, SNAP_PX]
  rw [if_pos ⟨h1, h2⟩]

/-- `snap_axis` when the high edge wins. -/
theorem snap_axis_eq_hi (p s lo hi : ℤ) (loT hiT : SnapT)
    (h1 : ¬(|p - lo| ≤ 16 ∧ |p - lo| ≤ |p + s - hi|))
    (h2 : |p + s - hi| ≤ 16) :
    snap_axis p s lo hi loT hiT = (hi - s, some hiT) := by
  simp only [snap_axis, SNAP_PX]
  rw [if_neg h1, if_pos h2]

/-- `snap_axis` when neither edge is in range. -/
theorem snap_axis_eq_none (p s lo hi : ℤ) (loT hiT : SnapT)
    (h1 : ¬(|p - lo| ≤ 16 ∧ |p - lo| ≤ |p + s - hi|))
    (h2 : ¬(|p + s - hi| ≤ 16)) :
    snap_axis p s lo hi loT hiT = (p, none) := by
  simp only [snap_axis, SNAP_PX]
  rw [if_neg h1, if_neg h2]

/-- The axis snap can only be absent, the low target, or the high target. -/
theorem snap_axis_snd_cases (p s lo hi : ℤ) (loT hiT : SnapT) :
    (snap_axis p s lo hi loT hiT).2 = none ∨
      (snap_axis p s lo hi loT hiT).2 = some loT ∨
      (snap_axis p s lo hi loT hiT).2 = some hiT := by
  simp only [snap_axis, SNAP_PX]
  split_ifs <;> simp

/-- `combine_targets` preserves each axis's contribution, for the axis
values `_apply_snap` can actually produce. -/
theorem hTarget_vTarget_combine (ox oy : Option SnapT)
    (hx : ox = none ∨ ox = some SnapT.left ∨ ox = some SnapT.right)
    (hy : oy = none ∨ oy = some SnapT.top ∨ oy = some SnapT.bottom) :
    hTarget (combine_targets ox oy) = ox ∧
      vTarget (combine_targets ox oy) = oy := by
  rcases hx with rfl | rfl | rfl <;> rcases hy with rfl | rfl | rfl <;> decide

/-- C3: `_apply_snap` magnetizes each axis independently: within the
16-pixel distance of the near edge (low edge preferred when not farther
than the high edge) the coordinate is moved onto that edge and the
returned target has the corresponding axis component; an axis not within
the snap distance keeps its coordinate and contributes no axis target. -/
theorem apply_snap_axis_independence (x y w h l t r b : ℤ) :
    ((|x - l| ≤ 16 ∧ |x - l| ≤ |x + w - r|) →
      (apply_snap x y w h l t r b).1 = l ∧
        hTarget (apply_snap x y w h l t r b).2.2 = some SnapT.left)
    ∧ (¬(|x - l| ≤ 16 ∧ |x - l| ≤ |x + w - r|) → |x + w - r| ≤ 16 →
      (apply_snap x y w h l t r b).1 = r - w ∧
        hTarget (apply_snap x y w h l t r b).2.2 = some SnapT.right)
    ∧ (¬(|x - l| ≤ 16 ∧ |x - l| ≤ |x + w - r|) → ¬(|x + w - r| ≤ 16) →
      (apply_snap x y w h l t r b).1 = x ∧
        hTarget (apply_snap x y w h l t r b).2.2 = none)
    ∧ ((|y - t| ≤ 16 ∧ |y - t| ≤ |y + h - b|) →
      (apply_snap x y w h l t r b).2.1 = t ∧
        vTarget (apply_snap x y w h l t r b).2.2 = some SnapT.top)
    ∧ (¬(|y - t| ≤ 16 ∧ |y - t| ≤ |y + h - b|) → |y + h - b| ≤ 16 →
      (apply_snap x y w h l t r b).2.1 = b - h ∧
        vTarget (apply_snap x y w h l t r b).2.2 = some SnapT.bottom)
    ∧ (¬(|y - t| ≤ 16 ∧ |y - t| ≤ |y + h - b|) → ¬(|y + h - b| ≤ 16) →
      (apply_snap x y w h l t r b).2.1 = y ∧
        vTarget (apply_snap x y w h l t r b).2.2 = none) := by
  have hcomb := hTarget_vTarget_combine
    (snap_axis x w l r SnapT.left SnapT.right).2
    (snap_axis y h t b SnapT.top SnapT.bottom).2
    (snap_axis_snd_cases x w l r SnapT.left SnapT.right)
    (snap_axis_snd_cases y h t b SnapT.top SnapT.bottom)
  have hx1 : (apply_snap x y w h l t r b).1 =
      (snap_axis x w l r SnapT.left SnapT.right).1 := rfl
  have hy1 : (apply_snap x y w h l t r b).2.1 =
      (snap_axis y h t b SnapT.top SnapT.bottom).1 := rfl
  have htgt : (apply_snap x y w h l t r b).2.2 =
      combine_targets (snap_axis x w l r SnapT.left SnapT.right).2
        (snap_axis y h t b SnapT.top SnapT.bottom).2 := rfl
  refine ⟨?_, ?_, ?_, ?_, ?_, ?_⟩
  · rintro ⟨h1, h2⟩
    have hxs := snap_axis_eq_lo x w l r SnapT.left SnapT.right h1 h2
    exact ⟨by rw [hx1, hxs], by rw [htgt, hcomb.1, hxs]⟩
  · intro h1 h2
    have hxs := snap_axis_eq_hi x w l r SnapT.left SnapT.right h1 h2
    exact ⟨by rw [hx1, hxs], by rw [htgt, hcomb.1, hxs]⟩
  · intro h1 h2
    have hxs := snap_axis_eq_none x w l r SnapT.left SnapT.right h1 h2
    exact ⟨by rw [hx1, hxs], by rw [htgt, hcomb.1, hxs]⟩
  · rintro ⟨h1, h2⟩
    have hys := snap_axis_eq_lo y h t b SnapT.top SnapT.bottom h1 h2
    exact ⟨by rw [hy1, hys], by rw [htgt, hcomb.2, hys]⟩
  · intro h1 h2
    have hys := snap_axis_eq_hi y h t b SnapT.top SnapT.bottom h1 h2
    exact ⟨by rw [hy1, hys], by rw [htgt, hcomb.2, hys]⟩
  · intro h1 h2
    have hys := snap_axis_eq_none y h t b SnapT.top SnapT.bottom h1 h2
    exact ⟨by rw [hy1, hys], by rw [htgt, hcomb.2, hys]⟩

/-- Witness for C3: window at the top-left corner of a 100×100 work area. -/
theorem apply_snap_axis_independence_witness :
    (apply_snap 0 0 10 10 0 0 100 100).1 = 0 ∧
      hTarget (apply_snap 0 0 10 10 0 0 100 100).2.2 = some SnapT.left :=
  (apply_snap_axis_independence 0 0 10 10 0 0 100 100).1 (by decide)

/-- C4: the returned target is a given corner exactly when the matching
horizontal and vertical snaps both apply; a single snapped axis yields
that axis's edge target, and no snapped axis yields `NONE`. -/
theorem apply_snap_corner_characterization (x y w h l t r b : ℤ) :
    ((apply_snap x y w h l t r b).2.2 = SnapT.topleft ↔
      (snap_axis x w l r SnapT.left SnapT.right).2 = some SnapT.left ∧
        (snap_axis y h t b SnapT.top SnapT.bottom).2 = some SnapT.top)
    ∧ ((apply_snap x y w h l t r b).2.2 = SnapT.topright ↔
      (snap_axis x w l r SnapT.left SnapT.right).2 = some SnapT.right ∧
        (snap_axis y h t b SnapT.top SnapT.bottom).2 = some SnapT.top)
    ∧ ((apply_snap x y w h l t r b).2.2 = SnapT.bottomleft ↔
      (snap_axis x w l r SnapT.left SnapT.right).2 = some SnapT.left ∧
        (snap_axis y h t b SnapT.top SnapT.bottom).2 = some SnapT.bottom)
    ∧ ((apply_snap x y w h l t r b).2.2 = SnapT.bottomright ↔
      (snap_axis x w l r SnapT.left SnapT.right).2 = some SnapT.right ∧
        (snap_axis y h t b SnapT.top SnapT.bottom).2 = some SnapT.bottom)
    ∧ (∀ sx, (snap_axis x w l r SnapT.left SnapT.right).2 = some sx →
      (snap_axis y h t b SnapT.top SnapT.bottom).2 = none →
        (apply_snap x y w h l t r b).2.2 = sx)
    ∧ (∀ sy, (snap_axis x w l r SnapT.left SnapT.right).2 = none →
      (snap_axis y h t b SnapT.top SnapT.bottom).2 = some sy →
        (apply_snap x y w h l t r b).2.2 = sy)
    ∧ ((apply_snap x y w h l t r b).2.2 = SnapT.nosnap ↔
      (snap_axis x w l r SnapT.left SnapT.right).2 = none ∧
        (snap_axis y h t b SnapT.top SnapT.bottom).2 = none) := by
  have htgt : (apply_snap x y w h l t r b).2.2 =
      combine_targets (snap_axis x w l r SnapT.left SnapT.right).2
        (snap_axis y h t b SnapT.top SnapT.bottom).2 := rfl
  rcases snap_axis_snd_cases x w l r SnapT.left SnapT.right with hx | hx | hx <;>
    rcases snap_axis_snd_cases y h t b SnapT.top SnapT.bottom with hy | hy | hy <;>
      (rw [htgt, hx, hy]; decide)

/-- Witness for C4: a window touching both the top and left edges snaps to
the top-left corner. -/
theorem apply_snap_corner_characterization_witness :
    (apply_snap 0 0 10 10 0 0 100 100).2.2 = SnapT.topleft :=
  (apply_snap_corner_characterization 0 0 10 10 0 0 100 100).1.mpr
    ⟨by decide, by decide⟩

/-! ## Claim theorems: monitor picking -/

/-- The selection loop returns one of the candidates. -/
theorem select_best_mem (f : Monitor → ℤ) (best : Monitor) (l : List Monitor) :
    select_best f best l ∈ best :: l := by
  induction l generalizing best with
  | nil => simp [select_best]
  | cons c cs ih =>
    simp only [select_best]
    split_ifs
    · exact List.mem_cons_of_mem best (ih c)
    · rcases List.mem_cons.mp (ih best) with h | h
      · rw [h]; exact List.mem_cons_self _ _
      · exact List.mem_cons_of_mem best (List.mem_cons_of_mem c h)

/-- The selection loop returns a candidate of minimal key. -/
theorem select_best_le (f : Monitor → ℤ) (best : Monitor) (l : List Monitor) :
    ∀ m ∈ best :: l, f (select_best f best l) ≤ f m := by
  induction l generalizing best with
  | nil =>
    intro m hm
    rcases List.mem_cons.mp hm with rfl | h
    · simp [select_best]
    · cases h
  | cons c cs ih =>
    intro m hm
    simp only [select_best]
    split_ifs with hlt
    · rcases List.mem_cons.mp hm with rfl | hm2
      · exact (ih c c (List.mem_cons_self _ _)).trans hlt.le
      · exact ih c m hm2
    · rcases List.mem_cons.mp hm with heqm | hm2
      · rw [heqm]
        exact ih best best (List.mem_cons_self _ _)
      · rcases List.mem_cons.mp hm2 with heqm | hm3
        · rw [heqm]
          exact (ih best best (List.mem_cons_self _ _)).trans (not_lt.mp hlt)
        · exact ih best m (List.mem_cons_of_mem best hm3)

/-- Because the loop only replaces `best` on a strictly smaller distance,
ties go to the earlier candidate: every candidate strictly before the
returned one has a strictly larger key. -/
theorem select_best_first (f : Monitor → ℤ) (best : Monitor) (l : List Monitor) :
    ∃ pre post, best :: l = pre ++ select_best f best l :: post ∧
      ∀ m ∈ pre, f (select_best f best l) < f m := by
  induction l generalizing best with
  | nil => exact ⟨[], [], rfl, by simp⟩
  | cons c cs ih =>
    simp only [select_best]
    split_ifs with hlt
    · obtain ⟨pre, post, heq, hpre⟩ := ih c
      refine ⟨best :: pre, post, congrArg (List.cons best) heq, ?_⟩
      intro m hm
      rcases List.mem_cons.mp hm with rfl | hm2
      · exact lt_of_le_of_lt (select_best_le f c cs c (List.mem_cons_self _ _)) hlt
      · exact hpre m hm2
    · obtain ⟨pre, post, heq, hpre⟩ := ih best
      set sb := select_best f best cs with hsb
      cases pre with
      | nil =>
        injection heq with h1 h2
        refine ⟨[], c :: cs, ?_, by simp⟩
        rw [List.nil_append, ← h1]
      | cons p ps =>
        injection heq with h1 h2
        refine ⟨p :: c :: ps, post, ?_, ?_⟩
        · rw [← h1, h2]
          rfl
        · intro m hm
          rcases List.mem_cons.mp hm with heqm | hm2
          · rw [heqm, ← h1]
            rw [← h1] at hpre
            exact hpre best (List.mem_cons_self _ _)
          · rcases List.mem_cons.mp hm2 with heqm | hm3
            · rw [heqm]
              have hbc : f best ≤ f c := not_lt.mp hlt
              rw [h1] at hbc
              exact lt_of_lt_of_le (hpre p (List.mem_cons_self _ _)) hbc
            · exact hpre m (List.mem_cons_of_mem p hm3)

/-- `_pick_monitor` on a non-empty cache, unfolded one step. -/
theorem pick_monitor_cons_eq (m0 : Monitor) (ms : List Monitor) (px py : ℤ) :
    pick_monitor (m0 :: ms) px py =
      (match (if ((m0 :: ms).filter (fun m => monitor_contains m px py)).isEmpty
          then m0 :: ms
          else (m0 :: ms).filter (fun m => monitor_contains m px py)) with
      | [] => none
      | c :: cs => some (select_best (fun m => monitor_dist2 m px py) c cs)) := rfl

/-- `_pick_monitor` when some monitor contains the point: it selects among
the containing monitors. -/
theorem pick_monitor_of_contained (m0 : Monitor) (ms : List Monitor)
    (px py : ℤ) (c : Monitor) (cs : List Monitor)
    (hc : (m0 :: ms).filter (fun m => monitor_contains m px py) = c :: cs) :
    pick_monitor (m0 :: ms) px py =
      some (select_best (fun m => monitor_dist2 m px py) c cs) := by
  rw [pick_monitor_cons_eq, hc]
  simp

/-- `_pick_monitor` when no monitor contains the point: it selects among
all monitors. -/
theorem pick_monitor_of_no_contained (m0 : Monitor) (ms : List Monitor)
    (px py : ℤ)
    (hc : (m0 :: ms).filter (fun m => monitor_contains m px py) = []) :
    pick_monitor (m0 :: ms) px py =
      some (select_best (fun m => monitor_dist2 m px py) m0 ms) := by
  rw [pick_monitor_cons_eq, hc]
  simp

/-- A non-empty cache always yields a monitor. -/
theorem pick_monitor_cons_some (m0 : Monitor) (ms : List Monitor) (px py : ℤ) :
    ∃ m, pick_monitor (m0 :: ms) px py = some m := by
  cases hf : (m0 :: ms).filter (fun m => monitor_contains m px py) with
  | nil => exact ⟨_, pick_monitor_of_no_contained m0 ms px py hf⟩
  | cons c cs => exact ⟨_, pick_monitor_of_contained m0 ms px py c cs hf⟩

/-- Per-axis clamp bound: the clamped coordinate's squared offset is
minimal among all coordinates inside the interval. -/
theorem clamp_dist_le (p lo hi q : ℤ) (h1 : lo ≤ q) (h2 : q ≤ hi) :
    (p - min (max p lo) hi) * (p - min (max p lo) hi) ≤ (p - q) * (p - q) := by
  rcases le_total p lo with hpl | hpl
  · have hmax : max p lo = lo := max_eq_right hpl
    have hmin : min lo hi = lo := min_eq_left (h1.trans h2)
    rw [hmax, hmin]
    nlinarith
  · rcases le_total p hi with hph | hph
    · have hmax : max p lo = p := max_eq_left hpl
      have hmin : min p hi = p := min_eq_left hph
      rw [hmax, hmin, sub_self]
      simpa using mul_self_nonneg (p - q)
    · have hmax : max p lo = p := max_eq_left hpl
      have hmin : min p hi = hi := min_eq_right hph
      rw [hmax, hmin]
      nlinarith

/-- C5: `_pick_monitor` returns `None` exactly on an empty monitor list;
whenever some monitor's rectangle contains the point it returns a
containing monitor; otherwise it returns the earliest monitor minimizing
`_dist2_to_rect`; and `_dist2_to_rect` is the squared Euclidean distance
from the point to the rectangle (it bounds, and attains, the squared
distance to every point of the rectangle). -/
theorem pick_monitor_spec (monitors : List Monitor) (px py : ℤ) :
    (pick_monitor monitors px py = none ↔ monitors = [])
    ∧ (∀ m0 ∈ monitors, monitor_contains m0 px py = true →
        ∃ m, pick_monitor monitors px py = some m ∧ m ∈ monitors ∧
          monitor_contains m px py = true)
    ∧ ((∀ m0 ∈ monitors, monitor_contains m0 px py = false) → monitors ≠ [] →
        ∃ m pre post, pick_monitor monitors px py = some m ∧
          monitors = pre ++ m :: post ∧
          (∀ m2 ∈ monitors, monitor_dist2 m px py ≤ monitor_dist2 m2 px py) ∧
          (∀ m2 ∈ pre, monitor_dist2 m px py < monitor_dist2 m2 px py))
    ∧ (∀ lo tp hi bo qx qy : ℤ, lo ≤ qx → qx ≤ hi → tp ≤ qy → qy ≤ bo →
        dist2_to_rect lo tp hi bo px py ≤
          (px - qx) * (px - qx) + (py - qy) * (py - qy))
    ∧ (∀ lo tp hi bo : ℤ, lo ≤ hi → tp ≤ bo →
        ∃ qx qy, lo ≤ qx ∧ qx ≤ hi ∧ tp ≤ qy ∧ qy ≤ bo ∧
          dist2_to_rect lo tp hi bo px py =
            (px - qx) * (px - qx) + (py - qy) * (py - qy)) := by
  refine ⟨?_, ?_, ?_, ?_, ?_⟩
  · cases monitors with
    | nil => simp [pick_monitor]
    | cons m0 ms =>
      constructor
      · intro hn
        obtain ⟨m, hm⟩ := pick_monitor_cons_some m0 ms px py
        rw [hm] at hn
        cases hn
      · intro he
        exact (List.cons_ne_nil m0 ms he).elim
  · intro m0 hm0 hcont
    cases monitors with
    | nil => cases hm0
    | cons a ms =>
      have hmem : m0 ∈ (a :: ms).filter (fun m => monitor_contains m px py) :=
        List.mem_filter.mpr ⟨hm0, hcont⟩
      cases hf : (a :: ms).filter (fun m => monitor_contains m px py) with
      | nil =>
        rw [hf] at hmem
        cases hmem
      | cons c cs =>
        have hpick := pick_monitor_of_contained a ms px py c cs hf
        have hsel := select_best_mem (fun m => monitor_dist2 m px py) c cs
        rw [← hf] at hsel
        exact ⟨_, hpick, (List.mem_filter.mp hsel).1, (List.mem_filter.mp hsel).2⟩
  · intro hall hne
    cases monitors with
    | nil => exact absurd rfl hne
    | cons a ms =>
      have hf : (a :: ms).filter (fun m => monitor_contains m px py) = [] := by
        rw [List.filter_eq_nil_iff]
        intro m hm
        simp [hall m hm]
      have hpick := pick_monitor_of_no_contained a ms px py hf
      obtain ⟨pre, post, heq, hpre⟩ :=
        select_best_first (fun m => monitor_dist2 m px py) a ms
      exact ⟨_, pre, post, hpick, heq,
        fun m2 hm2 => select_best_le (fun m => monitor_dist2 m px py) a ms m2 hm2,
        hpre⟩
  · intro lo tp hi bo qx qy h1 h2 h3 h4
    have hx := clamp_dist_le px lo hi qx h1 h2
    have hy := clamp_dist_le py tp bo qy h3 h4
    exact add_le_add hx hy
  · intro lo tp hi bo hlohi htpbo
    exact ⟨min (max px lo) hi, min (max py tp) bo,
      le_min (le_max_right px lo) hlohi, min_le_right _ _,
      le_min (le_max_right py tp) htpbo, min_le_right _ _, rfl⟩

/-- Witness for C5: a single monitor containing the point is picked. -/
theorem pick_monitor_spec_witness :
    ∃ m, pick_monitor [⟨⟨0, 0, 100, 100⟩, ⟨0, 0, 100, 90⟩⟩] 10 10 = some m ∧
      m ∈ [(⟨⟨0, 0, 100, 100⟩, ⟨0, 0, 100, 90⟩⟩ : Monitor)] ∧
      monitor_contains m 10 10 = true :=
  (pick_monitor_spec [⟨⟨0, 0, 100, 100⟩, ⟨0, 0, 100, 90⟩⟩] 10 10).2.1
    ⟨⟨0, 0, 100, 100⟩, ⟨0, 0, 100, 90⟩⟩ (by simp) (by decide)

/-- C10: `_refresh_monitor_cache` always leaves a non-empty monitor list
(falling back to one full-screen monitor), so `_pick_monitor` on the
refreshed cache never returns `None` and the snap computation always has a
monitor, hence a work rectangle. -/
theorem refresh_monitor_cache_spec (enum_ok : Bool)
    (enumerated : List Monitor) (screen_w screen_h px py : ℤ) :
    refresh_monitor_cache enum_ok enumerated screen_w screen_h ≠ [] ∧
      ∃ m, pick_monitor (refresh_monitor_cache enum_ok enumerated screen_w screen_h)
        px py = some m := by
  have hne : refresh_monitor_cache enum_ok enumerated screen_w screen_h ≠ [] := by
    simp only [refresh_monitor_cache]
    cases enum_ok with
    | false => simp
    | true =>
      cases enumerated with
      | nil => simp
      | cons a l => simp
  refine ⟨hne, ?_⟩
  cases hm : refresh_monitor_cache enum_ok enumerated screen_w screen_h with
  | nil => exact absurd hm hne
  | cons m0 ms => exact pick_monitor_cons_some m0 ms px py

/-! ## Claim theorems: minimize/restore -/

/-- C6: from the restored state, `_toggle_minimized` minimizes (setting
`_minimized` and saving the size), and a second toggle restores: the
window gets its saved width and height back at its current position and
`_minimized` is cleared. -/
theorem toggle_minimized_round_trip (s : AppState) (treq twh treq2 twh2 : ℤ)
    (h : s.minimized = false) :
    toggle_minimized s treq twh = minimize_to_strip s treq twh
    ∧ (toggle_minimized s treq twh).minimized = true
    ∧ (toggle_minimized s treq twh).restore_size = some (s.win_w, s.win_h)
    ∧ toggle_minimized (toggle_minimized s treq twh) treq2 twh2 =
        restore_from_strip (toggle_minimized s treq twh)
    ∧ (toggle_minimized (toggle_minimized s treq twh) treq2 twh2).win_w = s.win_w
    ∧ (toggle_minimized (toggle_minimized s treq twh) treq2 twh2).win_h = s.win_h
    ∧ (toggle_minimized (toggle_minimized s treq twh) treq2 twh2).win_x =
        (toggle_minimized s treq twh).win_x
    ∧ (toggle_minimized (toggle_minimized s treq twh) treq2 twh2).win_y =
        (toggle_minimized s treq twh).win_y
    ∧ (toggle_minimized (toggle_minimized s treq twh) treq2 twh2).minimized = false := by
  simp [toggle_minimized, minimize_to_strip, restore_from_strip, h]

/-- Witness for C6 at a concrete restored state. -/
theorem toggle_minimized_round_trip_witness :
    (toggle_minimized (toggle_minimized
        ⟨false, none, 5, 6, 80, 120, true, true, true⟩ 20 18) 20 18).win_w = 80
    ∧ (toggle_minimized (toggle_minimized
        ⟨false, none, 5, 6, 80, 120, true, true, true⟩ 20 18) 20 18).win_h = 120
    ∧ (toggle_minimized (toggle_minimized
        ⟨false, none, 5, 6, 80, 120, true, true, true⟩ 20 18) 20 18).minimized = false := by
  have h := toggle_minimized_round_trip
    ⟨false, none, 5, 6, 80, 120, true, true, true⟩ 20 18 20 18 rfl
  exact ⟨h.2.2.2.2.1, h.2.2.2.2.2.1, h.2.2.2.2.2.2.2.2⟩

/-- C7: `_minimize_to_strip` keeps the window's x, y and width, sets the
height to the time strip's height (at least 1 pixel), and hides exactly
the non-time components. -/
theorem minimize_to_strip_frame_effect (s : AppState) (treq twh : ℤ) :
    (minimize_to_strip s treq twh).win_x = s.win_x
    ∧ (minimize_to_strip s treq twh).win_y = s.win_y
    ∧ (minimize_to_strip s treq twh).win_w = s.win_w
    ∧ (minimize_to_strip s treq twh).win_h = max (max treq twh) 1
    ∧ 1 ≤ (minimize_to_strip s treq twh).win_h
    ∧ (minimize_to_strip s treq twh).cpu_shown = false
    ∧ (minimize_to_strip s treq twh).gpu_shown = false
    ∧ (minimize_to_strip s treq twh).time_shown = true :=
  ⟨rfl, rfl, rfl, rfl, le_max_right _ 1, rfl, rfl, rfl⟩

end Hwmon
